import Mathlib

/-!
Verification of the zsh completion module of plumbum (plumbum/cli/completion.py).

The module has four parts: the completion descriptor classes (FileCompletion,
DirectoryCompletion, ListCompletion, DynamicCompletion, CallbackDynamicCompletion),
the `completion` decorator that attaches descriptors to switches or to the main
function, the static zsh script generator (`help_zsh_comp` with its inner
`switches`/`arguments`/`subcommands` functions) and the dynamic completion
protocol handler (the hidden `--complete` switch method).

Python strings are modelled as Lean `String` (a packed list of characters);
heterogeneous Python values appearing in the completion machinery are modelled
by small closed inductive types covering exactly the shapes the module handles.
-/

set_option maxHeartbeats 1000000

/-- One pass of Python `str.replace` for a single-character pattern `c`,
replacing each occurrence by the character list `r`.  Both patterns used by
`pre_quote` are single characters, so the character-by-character pass is the
exact behaviour of `str.replace`. -/
def replaceChar (c : Char) (r : List Char) : List Char → List Char
  | [] => []
  | x :: xs => (if x = c then r else [x]) ++ replaceChar c r xs

/-- Function pre_quote from completion.py:
`string.replace("\\", "\\\\").replace('"', '\\"')` — every backslash becomes
two backslashes, then every double quote becomes backslash-quote. -/
def pre_quote (s : String) : String :=
  ⟨replaceChar '"' ['\\', '"'] (replaceChar '\\' ['\\', '\\'] s.data)⟩

/-- The per-character effect of the two replace passes of `pre_quote`. -/
def escChar (c : Char) : List Char :=
  if c = '\\' then ['\\', '\\'] else if c = '"' then ['\\', '"'] else [c]

/-- Modelled from the spec: a correct single-step shell-side unquote, which
interprets a backslash as escaping the immediately following character and
copies every other character verbatim. -/
def unquote : List Char → List Char
  | [] => []
  | c :: cs =>
    if c = '\\' then
      match cs with
      | [] => ['\\']
      | d :: ds => d :: unquote ds
    else c :: unquote cs

theorem replaceChar_append (c : Char) (r : List Char) (a b : List Char) :
    replaceChar c r (a ++ b) = replaceChar c r a ++ replaceChar c r b := by
  induction a with
  | nil => rfl
  | cons x xs ih => simp [replaceChar, ih]

theorem pre_quote_data (s : String) :
    (pre_quote s).data = s.data.flatMap escChar := by
  show replaceChar '"' ['\\', '"'] (replaceChar '\\' ['\\', '\\'] s.data)
      = s.data.flatMap escChar
  induction s.data with
  | nil => rfl
  | cons x xs ih =>
    rcases eq_or_ne x '\\' with h1 | h1
    · subst h1
      simp [replaceChar, escChar, replaceChar_append, ih]
    · rcases eq_or_ne x '"' with h2 | h2
      · subst h2
        simp [replaceChar, escChar, replaceChar_append, ih]
      · simp [replaceChar, escChar, replaceChar_append, ih, h1, h2]

theorem unquote_cons_esc (d : Char) (l : List Char) :
    unquote ('\\' :: d :: l) = d :: unquote l := by
  rw [unquote.eq_def]
  simp

theorem unquote_cons_other (x : Char) (l : List Char) (h : ¬ x = '\\') :
    unquote (x :: l) = x :: unquote l := by
  rw [unquote.eq_def]
  simp only [if_neg h]

theorem unquote_flatMap (l : List Char) : unquote (l.flatMap escChar) = l := by
  induction l with
  | nil => rfl
  | cons x xs ih =>
    rcases eq_or_ne x '\\' with h1 | h1
    · subst h1
      simpa [escChar, unquote_cons_esc] using ih
    · rcases eq_or_ne x '"' with h2 | h2
      · subst h2
        simpa [escChar, unquote_cons_esc] using ih
      · simpa [escChar, h1, h2, unquote_cons_other x _ h1] using ih

/-- Claim C2: `pre_quote` is total over arbitrary strings, escapes backslash
first and then double quote (each backslash becomes a double backslash, each
double quote becomes backslash-quote), and a correct single-step shell-side
unquote of its output yields back exactly the input string. -/
theorem pre_quote_roundtrip (s : String) :
    unquote (pre_quote s).data = s.data
    ∧ (pre_quote s).data = s.data.flatMap escChar := by
  refine ⟨?_, pre_quote_data s⟩
  rw [pre_quote_data]
  exact unquote_flatMap s.data

/-- A value passed positionally into `ListCompletion(...)`: a string, a list of
values, or a dictionary of value-to-comment pairs (the shapes the constructor
inspects with `isinstance`). -/
inductive CompArg where
  | str (s : String)
  | list (xs : List CompArg)
  | dict (xs : List (String × String))

/-- State of a ListCompletion instance: `comp_list` is Python `None` (`none`)
or the stored value tuple; `comp_dict` is the keyword dictionary, modelled as
an association list in insertion order. -/
structure ListCompletion where
  comp_list : Option (List CompArg)
  comp_dict : List (String × String)

/-- Constructor `ListCompletion.__init__`: a sole positional list becomes the value tuple;
a sole positional dictionary becomes the dictionary and sets the value tuple
to `None`; otherwise the positional tuple and the keyword dictionary are
stored as given. -/
def ListCompletion.init (comp_list : List CompArg) (comp_dict : List (String × String)) :
    ListCompletion :=
  match comp_list with
  | [CompArg.list xs] => ⟨some xs, comp_dict⟩
  | [CompArg.dict d] => ⟨none, d⟩
  | _ => ⟨some comp_list, comp_dict⟩

/-- Quoting of one completion entry.  Python raises an
AttributeError when the entry is not a string (`none` here); strings are the
only usage the class documents. -/
def pre_quoteArg : CompArg → Option String
  | CompArg.str s => some (pre_quote s)
  | _ => none

/-- Python `sep.join(parts)`. -/
def joinSep (sep : String) : List String → String
  | [] => ""
  | [x] => x
  | x :: y :: xs => x ++ sep ++ joinSep sep (y :: xs)

/-- Renderer `ListCompletion.zsh_action`: a truthy value tuple renders
`("v1" "v2" ...)`; otherwise a truthy dictionary renders `("k\\:v" ...)`
(two literal backslashes before the colon, from the Python source literal
`'"%s\\\\:%s"'`); otherwise the empty string.  The result is `none` exactly
when Python would raise on a non-string entry. -/
def ListCompletion.zsh_action (c : ListCompletion) (_argname : String) : Option String :=
  match c.comp_list with
  | some (x :: xs) =>
    ((x :: xs).mapM pre_quoteArg).map (fun qs =>
      "(" ++ joinSep " " (qs.map (fun q => "\"" ++ q ++ "\"")) ++ ")")
  | _ =>
    if c.comp_dict.isEmpty then some ""
    else some ("(" ++ joinSep " " (c.comp_dict.map (fun kv =>
      "\"" ++ pre_quote kv.1 ++ "\\\\:" ++ pre_quote kv.2 ++ "\"")) ++ ")")

/-- Claim C6 as stated is false on the mapping case: the fragment rendered
from the mapping has two backslashes before the colon, not the single
backslash the claim writes. -/
theorem dict_render_not_single_backslash :
    (ListCompletion.init [CompArg.dict [("foo", "Help for foo")]] []).zsh_action "x"
      ≠ some "(\"foo\\:Help for foo\")" := by
  decide

/-- Claim C6 (amended): ListCompletion built from the values ["foo","bar"]
renders exactly `("foo" "bar")`; built from the mapping
\x7b"foo": "Help for foo"\x7d it renders exactly `("foo\\:Help for foo")` —
with a doubled backslash before the colon; built from neither it renders the
empty, non-suggesting fragment. -/
theorem listCompletion_render_exact :
    (ListCompletion.init [CompArg.str "foo", CompArg.str "bar"] []).zsh_action "x"
        = some "(\"foo\" \"bar\")"
    ∧ (ListCompletion.init [CompArg.dict [("foo", "Help for foo")]] []).zsh_action "x"
        = some "(\"foo\\\\:Help for foo\")"
    ∧ (ListCompletion.init [] []).zsh_action "x" = some "" := by
  refine ⟨by decide, by decide, rfl⟩

/-- Claim C5 as stated is false: an instance constructed with both a
positional value and a keyword mapping keeps the mapping, yet rendering uses
the values list although the mapping is present and non-empty. -/
theorem mixed_construction_values_win :
    (ListCompletion.init [CompArg.str "foo"] [("bar", "h")]).comp_dict = [("bar", "h")]
    ∧ (ListCompletion.init [CompArg.str "foo"] [("bar", "h")]).comp_dict ≠ []
    ∧ (ListCompletion.init [CompArg.str "foo"] [("bar", "h")]).zsh_action "x"
        = some "(\"foo\")" := by
  refine ⟨rfl, by decide, by decide⟩

/-- Claim C5 (amended): a sole positional mapping discards the values list
(`comp_list` becomes `None`) and installs the mapping; at render time the
values list takes precedence whenever it is non-empty, even if a mapping is
also present, and the mapping is consulted only when the values list is empty
or `None`. -/
theorem listCompletion_precedence_amended :
    (∀ d kw, (ListCompletion.init [CompArg.dict d] kw).comp_list = none
        ∧ (ListCompletion.init [CompArg.dict d] kw).comp_dict = d)
    ∧ (∀ x l kw a, ListCompletion.zsh_action ⟨some (x :: l), kw⟩ a
        = ListCompletion.zsh_action ⟨some (x :: l), []⟩ a)
    ∧ (∀ kw a, ListCompletion.zsh_action ⟨some [], kw⟩ a
        = ListCompletion.zsh_action ⟨none, kw⟩ a) :=
  ⟨fun _ _ => ⟨rfl, rfl⟩, fun _ _ _ _ => rfl, fun _ _ => rfl⟩

/-- Target of the `completion` decorator: either a switch method (a function
carrying `_switch_info`) or a plain function with the given `__name__`. -/
inductive DecoTarget where
  | switchFunc
  | mainFunc (fname : String)

/-- Result of applying the `completion` decorator: a TypeError with the given
message, a descriptor stored on the switch metadata, or a completion table
stored on the main function. -/
inductive DecoResult (α : Type) where
  | typeError (msg : String)
  | storedSwitch (d : α)
  | storedMain (table : List (String × α))
deriving DecidableEq

/-- The `completion(*comp_array, **comp_dict)` decorator applied to `func`.
For a switch target, the first positional descriptor wins, else the first
value of the keyword mapping (Python 2's `next(comp_dict.itervalues())`,
modelled as insertion order), else a TypeError.  For a plain function the
name must be `main` or `__call__` and the keyword mapping must be non-empty;
the whole mapping is then stored as the completion table. -/
def completionDeco {α : Type} (comp_array : List α) (comp_dict : List (String × α)) :
    DecoTarget → DecoResult α
  | DecoTarget.switchFunc =>
    match comp_array with
    | c :: _ => DecoResult.storedSwitch c
    | [] =>
      match comp_dict with
      | kv :: _ => DecoResult.storedSwitch kv.2
      | [] => DecoResult.typeError "completion() takes at least 1 argument (None given)"
  | DecoTarget.mainFunc fname =>
    if fname = "main" ∨ fname = "__call__" then
      if comp_dict.isEmpty then
        DecoResult.typeError
          "completion() on the main function takes at least one keyword argument (None given)"
      else DecoResult.storedMain comp_dict
    else DecoResult.typeError "completion() has to be applied to the main function or switches"

/-- Whether a decorator application failed loudly at definition time. -/
def DecoResult.isUsageError {α : Type} : DecoResult α → Bool
  | DecoResult.typeError _ => true
  | _ => false

/-- Claim C7 as stated is false: supplying a mapping with more than one key to
a switch target is accepted, storing the mapping's first value instead of
failing with a usage error. -/
theorem multikey_mapping_accepted :
    completionDeco ([] : List Nat) [("a", 1), ("b", 2)] DecoTarget.switchFunc
      = DecoResult.storedSwitch 1
    ∧ (completionDeco ([] : List Nat) [("a", 1), ("b", 2)] DecoTarget.switchFunc).isUsageError
        = false :=
  ⟨rfl, rfl⟩

/-- Claim C7 (amended): for a switch target, supplying zero descriptors fails
immediately with a TypeError; supplying positional descriptors stores the
first one; supplying only a mapping stores the mapping's first value — a
mapping with more than one key is not rejected, its remaining entries are
silently ignored. -/
theorem completion_deco_switch_rules (α : Type) :
    completionDeco ([] : List α) [] DecoTarget.switchFunc
      = DecoResult.typeError "completion() takes at least 1 argument (None given)"
    ∧ (∀ (c : α) (rest : List α) (kw : List (String × α)),
        completionDeco (c :: rest) kw DecoTarget.switchFunc = DecoResult.storedSwitch c)
    ∧ (∀ (k : String) (v : α) (rest : List (String × α)),
        completionDeco ([] : List α) ((k, v) :: rest) DecoTarget.switchFunc
          = DecoResult.storedSwitch v) :=
  ⟨rfl, fun _ _ _ => rfl, fun _ _ _ => rfl⟩

/-- A Python value handled by the dynamic completion protocol: a string or a
list of strings (the two shapes switch values and positional arguments take). -/
inductive PyVal where
  | str (s : String)
  | list (xs : List String)
deriving DecidableEq

/-- The exceptions the protocol handler can raise. -/
inductive PyError where
  | keyError
  | indexError
  | valueError
  | attributeError
  | nameError
deriving DecidableEq

/-- Observable effects of the protocol handler: invoking a replayed switch
method and printing one candidate line to standard output. -/
inductive Event where
  | call (func : String) (val : List PyVal)
  | print (s : String)
deriving DecidableEq

/-- A completion object seen through its two methods: `zsh_action` renders a
zsh grammar fragment for the given argument name; `complete` exists only on
dynamic completions (`none` makes the handler fail like Python's attribute
lookup on a static descriptor). -/
structure CompletionObj where
  zsh_action : String → String
  complete : Option (PyVal → List (String × PyVal) → List String)

/-- Class FileCompletion: `_files`, optionally with a pre-quoted glob filter
(an empty glob is falsy in Python and adds nothing). -/
def FileCompletion (glob : Option String) : CompletionObj where
  zsh_action := fun _ =>
    "_files" ++ (match glob with
                 | some g => if g = "" then "" else " -g \"" ++ pre_quote g ++ "\""
                 | none => "")
  complete := none

/-- Class DirectoryCompletion: directories only. -/
def DirectoryCompletion : CompletionObj where
  zsh_action := fun _ => "_path_files -/"
  complete := none

/-- Renderer `DynamicCompletion.zsh_action`: the fixed marker deferring to the generic
runtime hook, parameterised by the argument name. -/
def dynamicZshAction (argname : String) : String := " __m_complete_general " ++ argname

/-- Class CallbackDynamicCompletion: `complete` forwards to the stored callback
(extra constructor arguments are folded into the closure). -/
def CallbackDynamicCompletion (cb : PyVal → List (String × PyVal) → List String) :
    CompletionObj where
  zsh_action := dynamicZshAction
  complete := some cb

/-- The SwitchInfo metadata of one switch, as the generator and the handler
read it: handler function identity, dashless name spellings, group, whether
it takes an argument, whether it is repeatable, excluded switch names, help
text, mandatory flag and the attached completion descriptor. -/
structure SwitchInfo where
  func : String
  names : List String
  group : String
  argtype : Bool
  list : Bool
  excludes : List String
  help : String
  mandatory : Bool
  completion : Option CompletionObj

/-- One switch invocation recorded on the command line (`swfuncs` entry): the
switch function it resolved to, its invocation index, and the captured
values. -/
structure SwInv where
  func : String
  index : Nat
  val : List PyVal
deriving DecidableEq

/-- A command node: the entry-point argument names as `inspect.getargspec`
returns them (the `self` receiver included), the variadic parameter name if
any, the number of defaulted parameters (`0` models Python `None`), the
subcommand names, the main function's completion table
(`__plumbum_completion__`) and the switch metadata reachable at this node. -/
structure CommandNode where
  m_args : List String
  m_varargs : Option String
  m_defaults : Nat
  subNames : List String
  comp_table : List (String × CompletionObj)
  switchInfos : List SwitchInfo

/-- Lookup in `_switches_by_name`: the switch whose name list contains `name`
(names are unique across switches in plumbum, so the first match is the
dictionary entry). -/
def switchesByName (l : List SwitchInfo) (name : String) : Option SwitchInfo :=
  l.find? (fun si => si.names.contains name)

/-- The SwitchInfo of the `--complete` switch as declared on CompletionMixin:
`@switch(["--complete"], argtype=str, overridable=True, group="Hidden-switches")`.
The `switch` decorator machinery itself lives in plumbum.cli.switches, outside
this module; only the fields the declaration fixes matter here. -/
def completeSwitchInfo : SwitchInfo where
  func := "complete"
  names := ["complete"]
  group := "Hidden-switches"
  argtype := true
  list := false
  excludes := []
  help := "Hidden switch for dynamic completion"
  mandatory := false
  completion := none

/-- Bytewise (codepoint) lexicographic order on character lists, Python 2's
string comparison. -/
def charListLe : List Char → List Char → Bool
  | [], _ => true
  | _ :: _, [] => false
  | a :: as, b :: bs => if a = b then charListLe as bs else decide (a < b)

/-- Python string `<=`. -/
def strLe (a b : String) : Bool := charListLe a.data b.data

/-- Python tuple/list comparison on string sequences (`sorted` key for switch
name tuples). -/
def strListLe : List String → List String → Bool
  | [], _ => true
  | _ :: _, [] => false
  | a :: as, b :: bs => if a = b then strListLe as bs else strLe a b

instance decRelOfBoolRel {α : Type} (p : α → α → Bool) :
    DecidableRel (fun a b => p a b = true) := fun _ _ => instDecidableEqBool _ true

/-- Helper `readd_dashes_and_join` from the `switches` generator: re-add the dashes
plumbum strips from switch names and join with the separator. -/
def readd_dashes_and_join (flags : List String) (sep : String) : String :=
  joinSep sep (flags.map (fun n => (if n.data.length = 1 then "-" else "--") ++ n))

/-- The zsh `_arguments` spec the `switches` generator yields for one switch:
`<excludes><list-marker><spellings>"[<help>]<argtype>"`.  A multi-name switch
is braced; a valued switch with a descriptor renders the descriptor's action
for the `+`-marked name through `pre_quote`, a valued switch without one gets
the neutral `: : ` placeholder. -/
def switchSpec (si : SwitchInfo) : String :=
  let swnames0 := readd_dashes_and_join si.names ","
  let swnames := if 1 < si.names.length then "\x7b" ++ swnames0 ++ "\x7d" else swnames0
  let argtype :=
    if si.argtype then
      match si.completion with
      | some comp => ": :" ++ pre_quote (comp.zsh_action ("+" ++ si.names.headD ""))
      | none => ": : "
    else ""
  let lst := if si.list then "\\*" else ""
  let excl := if si.excludes.isEmpty then ""
              else "\x27(" ++ readd_dashes_and_join si.excludes " " ++ ")\x27"
  let hlp0 := if si.help = "" then "" else pre_quote si.help
  let hlp := if si.mandatory then hlp0 ++ " (mandatory)" else hlp0
  excl ++ lst ++ swnames ++ "\"[" ++ hlp ++ "]" ++ argtype ++ "\""

/-- The switches that survive the Hidden-switches filter of the `switches`
generator. -/
def visibleSwitches (cmd : CommandNode) : List SwitchInfo :=
  cmd.switchInfos.filter (fun si => !(si.group == "Hidden-switches"))

/-- The group names of the given switches, each once, in sorted order (the
iteration order of `sorted(by_groups.items())`). -/
def groupNames (l : List SwitchInfo) : List String :=
  List.insertionSort (fun a b => strLe a b = true) ((l.map (fun si => si.group)).dedup)

/-- The full switches fragment for a command node: groups in sorted order,
switches within a group sorted by their name tuple, each rendered by
`switchSpec`. -/
def switchesFragment (cmd : CommandNode) : List String :=
  (groupNames (visibleSwitches cmd)).flatMap (fun g =>
    (List.insertionSort (fun a b => strListLe a.names b.names = true)
        ((visibleSwitches cmd).filter (fun si => si.group == g))).map switchSpec)

/-- Replace the switch metadata of a command node. -/
def CommandNode.withSwitches (cmd : CommandNode) (l : List SwitchInfo) : CommandNode :=
  { cmd with switchInfos := l }

/-- Claim C9: switches in the `Hidden-switches` group contribute nothing to
the switches fragment — the fragment is unchanged when they are removed
beforehand, a command with only hidden switches yields an empty fragment, and
the `--complete` switch itself is declared in the hidden group, so the
generated script never references it. -/
theorem hidden_group_excluded (cmd : CommandNode) :
    switchesFragment cmd
      = switchesFragment
          (cmd.withSwitches (cmd.switchInfos.filter (fun si => !(si.group == "Hidden-switches"))))
    ∧ switchesFragment
          (cmd.withSwitches (cmd.switchInfos.filter (fun si => si.group == "Hidden-switches"))) = []
    ∧ completeSwitchInfo.group = "Hidden-switches" := by
  refine ⟨?_, ?_, rfl⟩
  · unfold switchesFragment visibleSwitches CommandNode.withSwitches
    simp [List.filter_filter]
  · unfold switchesFragment visibleSwitches CommandNode.withSwitches
    have h : (cmd.switchInfos.filter (fun si => si.group == "Hidden-switches")).filter
        (fun si => !(si.group == "Hidden-switches")) = [] := by
      simp [List.filter_filter]
    simp [h, groupNames]

/-- The warning written when optional arguments are mixed with subcommands. -/
def optionalWarning : String :=
  "Mixing subcommands and optional arguments is not fully supported, expect unexpected behaviour.\n"

/-- The warning written when a variadic parameter is mixed with subcommands
(one `sys.stderr.write` call whose text spans two lines). -/
def variadicWarning (v : String) : String :=
  "Mixing subcommands and variable arguments is not supported.\nIgnoring the argument " ++ v ++ ".\n"

/-- The zsh action used for the entry-point parameter `arg`: the attached
descriptor's action, or the NoCompletion action `" "` when the completion
table has no entry for it. -/
def argAction (cmd : CommandNode) (arg : String) : String :=
  match List.lookup arg cmd.comp_table with
  | some comp => comp.zsh_action arg
  | none => " "

/-- The `arguments` generator: the positional argument specs for a command
node together with the text written to the error stream.  Each named
parameter (after the `self` receiver) becomes `':[:]name:action'` (the inner
extra colon marking optional parameters); a variadic parameter becomes
`'*:::name:action'` unless the node has subcommands, in which case the
variadic slot is dropped and the two-line warning is written instead. -/
def arguments (cmd : CommandNode) : List String × String :=
  let margs := cmd.m_args.drop 1
  let mandatoryCount := if cmd.m_defaults = 0 then margs.length else margs.length - cmd.m_defaults
  let warn1 := if cmd.m_defaults ≠ 0 ∧ ¬cmd.subNames.isEmpty then optionalWarning else ""
  let specs := margs.enum.map (fun p =>
    "\x27:" ++ (if mandatoryCount ≤ p.1 then ":" else "") ++ p.2 ++ ":"
      ++ argAction cmd p.2 ++ "\x27")
  match cmd.m_varargs with
  | none => (specs, warn1)
  | some v =>
    if cmd.subNames.isEmpty then
      (specs ++ ["\x27*:::" ++ v ++ ":" ++ argAction cmd v ++ "\x27"], warn1)
    else (specs, warn1 ++ variadicWarning v)

/-- Strip the variadic parameter from a command node. -/
def CommandNode.withoutVarargs (cmd : CommandNode) : CommandNode :=
  { cmd with m_varargs := none }

/-- A command node whose main function is `def main(self, *files)` and which
has one subcommand. -/
def c4cmd : CommandNode where
  m_args := ["self"]
  m_varargs := some "files"
  m_defaults := 0
  subNames := ["sub"]
  comp_table := []
  switchInfos := []

/-- Claim C4 as stated is false on the "exactly one warning line" part: for a
variadic entry point with a subcommand the error-stream text consists of two
newline-terminated lines, not one. -/
theorem variadic_warning_two_lines :
    ((arguments c4cmd).2).data.count '\n' = 2
    ∧ ((arguments c4cmd).2).data.count '\n' ≠ 1 := by
  constructor
  · decide
  · decide

/-- Claim C4 (amended): for every command node with a trailing variadic
parameter and a non-empty subcommand set, the generator omits the variadic
slot entirely — the emitted positional specs equal those of the same node
without the variadic parameter — and appends to the error stream exactly one
warning message for it, a message consisting of two newline-terminated lines. -/
theorem variadic_subcommands_amended (cmd : CommandNode) (v : String)
    (h1 : cmd.m_varargs = some v) (h2 : cmd.subNames ≠ [])
    (h3 : '\n' ∉ v.data) :
    (arguments cmd).1 = (arguments cmd.withoutVarargs).1
    ∧ (arguments cmd).2 = (arguments cmd.withoutVarargs).2 ++ variadicWarning v
    ∧ (variadicWarning v).data.count '\n' = 2 := by
  have hsub : cmd.subNames.isEmpty = false := by
    simpa [List.isEmpty_iff] using h2
  have hdata : (variadicWarning v).data
      = "Mixing subcommands and variable arguments is not supported.\nIgnoring the argument ".data
        ++ v.data ++ ".\n".data := by
    simp [variadicWarning, String.data_append]
  refine ⟨?_, ?_, ?_⟩
  · simp [arguments, CommandNode.withoutVarargs, h1, hsub, argAction]
  · simp [arguments, CommandNode.withoutVarargs, h1, hsub]
  · rw [hdata, List.count_append, List.count_append, List.count_eq_zero.mpr h3]
    decide

/-- A command node like `c4cmd` but with a completion descriptor attached to
the variadic parameter, exercising the amended C4 theorem concretely. -/
def w4cmd : CommandNode where
  m_args := ["self", "name"]
  m_varargs := some "files"
  m_defaults := 0
  subNames := ["sub"]
  comp_table := [("files", FileCompletion (some "*.py"))]
  switchInfos := [completeSwitchInfo]

theorem variadic_subcommands_amended_witness :
    (arguments w4cmd).1 = (arguments w4cmd.withoutVarargs).1
    ∧ (arguments w4cmd).2 = (arguments w4cmd.withoutVarargs).2 ++ variadicWarning "files"
    ∧ (variadicWarning "files").data.count '\n' = 2 :=
  variadic_subcommands_amended w4cmd "files" rfl (by decide) (by decide)

/-- Python startswith for the switch marker, `argname.startswith("+")`. -/
def startsWithPlus (s : String) : Bool :=
  match s.data with
  | c :: _ => c = '+'
  | [] => false

/-- Python slicing `argname[1:]`. -/
def dropFirst (s : String) : String :=
  match s.data with
  | _ :: cs => ⟨cs⟩
  | [] => ⟨[]⟩

/-- Python `s.split(":")`: the colon-separated pieces, keeping empty pieces. -/
def splitCols : List Char → List (List Char)
  | [] => [[]]
  | c :: cs =>
    match splitCols cs with
    | x :: xs => if c = ':' then [] :: x :: xs else (c :: x) :: xs
    | [] => if c = ':' then [[], []] else [[c]]

/-- One decimal digit. -/
def decDigit (c : Char) : Option Nat :=
  if '0' ≤ c ∧ c ≤ '9' then some (c.toNat - '0'.toNat) else none

/-- The value of a non-empty all-digit character list. -/
def digitsVal (l : List Char) : Option Nat :=
  match l with
  | [] => none
  | _ =>
    l.foldl (fun acc c =>
        match acc, decDigit c with
        | some a, some d => some (a * 10 + d)
        | _, _ => none)
      (some 0)

/-- Python `int(s)` on the strings the protocol sends (an optional sign and
decimal digits); `none` models ValueError. -/
def pyInt (s : String) : Option Int :=
  match s.data with
  | '-' :: rest => (digitsVal rest).map (fun n => -(n : Int))
  | '+' :: rest => (digitsVal rest).map (fun n => (n : Int))
  | l => (digitsVal l).map (fun n => (n : Int))

/-- Python list indexing `l[k]` with negative indices counting from the end;
`none` models IndexError. -/
def pyIndex (l : List String) (k : Int) : Option String :=
  if 0 ≤ k then l[k.toNat]?
  else if 0 ≤ (l.length : Int) + k then l[((l.length : Int) + k).toNat]? else none

/-- Python string indexing `s[k]` (yields a one-character string). -/
def pyIndexStr (s : String) (k : Int) : Option String :=
  if 0 ≤ k then (s.data[k.toNat]?).map (fun c => ⟨[c]⟩)
  else if 0 ≤ (s.data.length : Int) + k then
    (s.data[((s.data.length : Int) + k).toNat]?).map (fun c => ⟨[c]⟩)
  else none

/-- Python `x[-1]` on a switch value: last element of a list, or the last
character of a string; IndexError when empty. -/
def pyLast : PyVal → Except PyError PyVal
  | PyVal.list l =>
    match l.getLast? with
    | some x => Except.ok (PyVal.str x)
    | none => Except.error PyError.indexError
  | PyVal.str s =>
    match s.data.getLast? with
    | some c => Except.ok (PyVal.str ⟨[c]⟩)
    | none => Except.error PyError.indexError

/-- Reconstruction of `posargs`: `dict(zip(m_args, tailargs))`, plus the variadic tail under the
variadic name when more words than named parameters were supplied.  `m_args`
here is already without the `self` receiver.  Parameter names are distinct in
a Python signature, so association-list lookup agrees with the dictionary. -/
def buildPosargs (margs : List String) (m_varargs : Option String)
    (tailargs : List String) : List (String × PyVal) :=
  List.zipWith (fun a t => (a, PyVal.str t)) margs tailargs ++
  (match m_varargs with
   | some v =>
     if margs.length < tailargs.length then
       [(v, PyVal.list (tailargs.drop margs.length))]
     else []
   | none => [])

/-- Sort key of the replay loop: ascending invocation index (Python sorts
tuples `(sf.index, f, sf)`; plumbum gives distinct indices to distinct
switch functions, so the index decides). -/
def invLe (a b : SwInv) : Prop := a.index ≤ b.index

instance : DecidableRel invLe := fun a b => Nat.decLe a.index b.index

instance : IsTotal SwInv invLe := ⟨fun a b => Nat.le_total a.index b.index⟩

instance : IsTrans SwInv invLe := ⟨fun _ _ _ hab hbc => Nat.le_trans hab hbc⟩

/-- The switch invocations in original left-to-right (ascending index)
order. -/
def sortedInvs (l : List SwInv) : List SwInv := List.insertionSort invLe l

/-- Extraction `argname, current = sf.val[0].split(":")`: fails with IndexError on an
empty value tuple, AttributeError on a non-string value, ValueError unless
the split yields exactly two pieces. -/
def extractTarget (val : List PyVal) : Except PyError (String × String) :=
  match val[0]? with
  | none => Except.error PyError.indexError
  | some (PyVal.list _) => Except.error PyError.attributeError
  | some (PyVal.str s) =>
    match splitCols s.data with
    | [a, c] => Except.ok (⟨a⟩, ⟨c⟩)
    | _ => Except.error PyError.valueError

/-- The replay loop of the `complete` switch method: iterate the recorded
switch invocations in ascending index order; the completion switch itself is
not called — its value is split into the target name and current position —
and every other switch function is invoked with its captured values.
Returns the call events and the extracted target (the last extraction wins,
matching Python's assignment semantics). -/
def replayLoop (cf : String) : List SwInv → Except PyError (List Event × Option (String × String))
  | [] => Except.ok ([], none)
  | inv :: rest =>
    if inv.func == cf then
      match extractTarget inv.val with
      | Except.error e => Except.error e
      | Except.ok p =>
        match replayLoop cf rest with
        | Except.error e => Except.error e
        | Except.ok (evts, ex) => Except.ok (evts, some (ex.getD p))
    else
      match replayLoop cf rest with
      | Except.error e => Except.error e
      | Except.ok (evts, ex) => Except.ok (Event.call inv.func inv.val :: evts, ex)

/-- The replayed switch calls: every recorded invocation except the
completion switch itself, in ascending invocation-index order. -/
def replayCalls (cf : String) (invs : List SwInv) : List Event :=
  ((sortedInvs invs).filter (fun i => !(i.func == cf))).map
    (fun i => Event.call i.func i.val)

/-- The `complete` switch method (the dynamic completion protocol handler).
It rebuilds `posargs` from the entry-point signature and the trailing words,
replays all other recorded switch invocations in ascending index order while
extracting `<target>:<index>` from the completion switch's value, then
resolves the target: a `+`-prefixed name is looked up among the switches (an
unknown name raises KeyError) and takes its prefix from that switch's
captured value (last element for a repeatable switch); any other name is
looked up in the main function's completion table and in `posargs`, where
both misses are caught and end the handler silently; for the variadic
parameter the word at the (1-based) current position inside the variadic
tail is selected.  Finally the descriptor's `complete` result is printed one
candidate per line. -/
def completeHandler (cmd : CommandNode) (swfuncs : List SwInv) (tailargs : List String) :
    Except PyError (List Event) :=
  let margs := cmd.m_args.drop 1
  let posargs := buildPosargs margs cmd.m_varargs tailargs
  match switchesByName cmd.switchInfos "complete" with
  | none => Except.error PyError.keyError
  | some cfi =>
    match replayLoop cfi.func (sortedInvs swfuncs) with
    | Except.error e => Except.error e
    | Except.ok (_, none) => Except.error PyError.nameError
    | Except.ok (revts, some (argname, current)) =>
      if startsWithPlus argname then
        match switchesByName cmd.switchInfos (dropFirst argname) with
        | none => Except.error PyError.keyError
        | some swinfo =>
          match swfuncs.find? (fun i => i.func == swinfo.func) with
          | none => Except.error PyError.keyError
          | some sf =>
            match sf.val[0]? with
            | none => Except.error PyError.indexError
            | some pfx0 =>
              match (if swinfo.list then pyLast pfx0 else Except.ok pfx0) with
              | Except.error e => Except.error e
              | Except.ok pfx1 =>
                match swinfo.completion with
                | none => Except.error PyError.attributeError
                | some comp =>
                  match comp.complete with
                  | none => Except.error PyError.attributeError
                  | some fn => Except.ok (revts ++ (fn pfx1 posargs).map Event.print)
      else
        match List.lookup argname cmd.comp_table with
        | none => Except.ok revts
        | some comp =>
          match List.lookup argname posargs with
          | none => Except.ok revts
          | some pv =>
            match (if cmd.m_varargs = some argname then
                     match pv with
                     | PyVal.list l =>
                       match pyInt current with
                       | none => Except.error PyError.valueError
                       | some n =>
                         match pyIndex l (n - 1) with
                         | none => Except.error PyError.indexError
                         | some w => Except.ok (PyVal.str w)
                     | PyVal.str s =>
                       match pyInt current with
                       | none => Except.error PyError.valueError
                       | some n =>
                         match pyIndexStr s (n - 1) with
                         | none => Except.error PyError.indexError
                         | some w => Except.ok (PyVal.str w)
                   else Except.ok pv) with
            | Except.error e => Except.error e
            | Except.ok pfx =>
              match comp.complete with
              | none => Except.error PyError.attributeError
              | some fn => Except.ok (revts ++ (fn pfx posargs).map Event.print)

/-- The call events a successful replay loop produces: exactly the
non-completion invocations of its input, in input order. -/
theorem replayLoop_events (cf : String) (l : List SwInv) (evts : List Event)
    (ex : Option (String × String))
    (h : replayLoop cf l = Except.ok (evts, ex)) :
    evts = (l.filter (fun i => !(i.func == cf))).map (fun i => Event.call i.func i.val) := by
  induction l generalizing evts ex with
  | nil =>
    simp only [replayLoop, Except.ok.injEq, Prod.mk.injEq] at h
    simp [← h.1]
  | cons inv rest ih =>
    cases hc : inv.func == cf with
    | true =>
      rcases hE : extractTarget inv.val with e | p
      · simp [replayLoop, hc, hE] at h
      · rcases hR : replayLoop cf rest with e | pr
        · simp [replayLoop, hc, hE, hR] at h
        · obtain ⟨evts', ex'⟩ := pr
          simp only [replayLoop, hc, hE, hR, if_true, Except.ok.injEq, Prod.mk.injEq] at h
          rw [← h.1]
          simpa [hc] using ih evts' ex' hR
    | false =>
      rcases hR : replayLoop cf rest with e | pr
      · simp [replayLoop, hc, hR] at h
      · obtain ⟨evts', ex'⟩ := pr
        simp [replayLoop, hc, hR] at h
        rcases h with ⟨h1, h2⟩
        subst h1
        simpa [hc] using ih evts' ex' hR

/-- Shape of a successful handler run: the completion switch was found, the
replay loop succeeded, and the output events are the replay events followed
only by printed candidates. -/
theorem handler_ok_form (cmd : CommandNode) (swfuncs : List SwInv)
    (tailargs : List String) (evts : List Event)
    (h : completeHandler cmd swfuncs tailargs = Except.ok evts) :
    ∃ cfi revts ex, switchesByName cmd.switchInfos "complete" = some cfi
      ∧ replayLoop cfi.func (sortedInvs swfuncs) = Except.ok (revts, ex)
      ∧ ∃ ps, evts = revts ++ ps ∧ ∀ e ∈ ps, ∃ s, e = Event.print s := by
  simp only [completeHandler] at h
  split at h
  · cases h
  · rename_i x0 cfi hcf
    split at h
    · cases h
    · cases h
    · rename_i x1 revts argname current heq
      refine ⟨cfi, revts, some (argname, current), hcf, heq, ?_⟩
      split at h
      · split at h
        · cases h
        · split at h
          · cases h
          · split at h
            · cases h
            · split at h
              · cases h
              · split at h
                · cases h
                · split at h
                  · cases h
                  · injection h with h
                    refine ⟨_, h.symm, ?_⟩
                    intro e he
                    rcases List.mem_map.1 he with ⟨s, _, rfl⟩
                    exact ⟨_, rfl⟩
      · split at h
        · injection h with h
          exact ⟨[], by simp [← h], by simp⟩
        · split at h
          · injection h with h
            exact ⟨[], by simp [← h], by simp⟩
          · split at h
            · cases h
            · split at h
              · cases h
              · injection h with h
                refine ⟨_, h.symm, ?_⟩
                intro e he
                rcases List.mem_map.1 he with ⟨s, _, rfl⟩
                exact ⟨_, rfl⟩

/-- The replay contract of the handler: the completion switch resolves, the
output consists of the replayed switch calls — every recorded invocation
except the completion switch itself, in ascending invocation-index order —
followed only by printed candidate lines, and the sorted invocation list is
ordered by index and a permutation of the recorded invocations. -/
def ReplayShape (cmd : CommandNode) (swfuncs : List SwInv) (evts : List Event) : Prop :=
  (∃ cfi, switchesByName cmd.switchInfos "complete" = some cfi
    ∧ ∃ ps, evts = replayCalls cfi.func swfuncs ++ ps
      ∧ ∀ e ∈ ps, ∃ s, e = Event.print s)
  ∧ List.Sorted invLe (sortedInvs swfuncs)
  ∧ (sortedInvs swfuncs).Perm swfuncs

/-- Claim C8: on every successful dynamic completion request, all recorded
switch invocations except the completion switch itself are executed in
original left-to-right (ascending index) order, before any candidate is
printed. -/
theorem replay_order_and_shape (cmd : CommandNode) (swfuncs : List SwInv)
    (tailargs : List String) (evts : List Event)
    (h : completeHandler cmd swfuncs tailargs = Except.ok evts) :
    ReplayShape cmd swfuncs evts := by
  obtain ⟨cfi, revts, ex, hcf, heq, ps, hev, hps⟩ :=
    handler_ok_form cmd swfuncs tailargs evts h
  refine ⟨⟨cfi, hcf, ps, ?_, hps⟩, List.sorted_insertionSort invLe swfuncs,
    List.perm_insertionSort invLe swfuncs⟩
  rw [hev, replayLoop_events cfi.func (sortedInvs swfuncs) revts ex heq]
  rfl

/-- A callback completion echoing the prefix (list prefixes echo their
elements), used by the concrete handler runs below. -/
def echoCompletion : CompletionObj :=
  CallbackDynamicCompletion (fun p _ =>
    match p with
    | PyVal.str s => [s]
    | PyVal.list l => l)

/-- A command `def main(self, arg1)` with a completion on `arg1`. -/
def w8cmd : CommandNode where
  m_args := ["self", "arg1"]
  m_varargs := none
  m_defaults := 0
  subNames := []
  comp_table := [("arg1", echoCompletion)]
  switchInfos := [completeSwitchInfo]

/-- Two ordinary switch invocations recorded out of order plus the completion
switch. -/
def w8invs : List SwInv :=
  [⟨"b_switch", 1, [PyVal.str "vb"]⟩, ⟨"a_switch", 0, [PyVal.str "va"]⟩,
   ⟨"complete", 2, [PyVal.str "arg1:1"]⟩]

theorem replay_order_and_shape_witness :
    ReplayShape w8cmd w8invs
      [Event.call "a_switch" [PyVal.str "va"], Event.call "b_switch" [PyVal.str "vb"],
       Event.print "hello"] :=
  replay_order_and_shape w8cmd w8invs ["hello"]
    [Event.call "a_switch" [PyVal.str "va"], Event.call "b_switch" [PyVal.str "vb"],
     Event.print "hello"] rfl

/-- Claim C10: when the target names an entry in the completion table for
which no word has been supplied yet (the name is missing from the rebuilt
positional-argument mapping), the handler ends silently — the KeyError from
the `posargs` lookup is caught, no candidate is printed, no error escapes. -/
theorem missing_posarg_silent (cmd : CommandNode) (swfuncs : List SwInv)
    (tailargs : List String) (cfi : SwitchInfo) (revts : List Event)
    (argname current : String) (comp : CompletionObj)
    (h0 : switchesByName cmd.switchInfos "complete" = some cfi)
    (h1 : replayLoop cfi.func (sortedInvs swfuncs)
        = Except.ok (revts, some (argname, current)))
    (h2 : startsWithPlus argname = false)
    (h3 : List.lookup argname cmd.comp_table = some comp)
    (h4 : List.lookup argname (buildPosargs (cmd.m_args.drop 1) cmd.m_varargs tailargs)
        = none) :
    completeHandler cmd swfuncs tailargs = Except.ok revts
    ∧ ∀ s, Event.print s ∉ revts := by
  constructor
  · simp only [completeHandler, h0, h1, h2, h3, h4]
    simp
  · intro s hs
    rw [replayLoop_events cfi.func (sortedInvs swfuncs) revts _ h1] at hs
    rcases List.mem_map.1 hs with ⟨i, _, hei⟩
    cases hei

/-- A command `def main(self, arg1)` whose `arg1` has a completion entry. -/
def c10cmd : CommandNode where
  m_args := ["self", "arg1"]
  m_varargs := none
  m_defaults := 0
  subNames := []
  comp_table := [("arg1", echoCompletion)]
  switchInfos := [completeSwitchInfo]

/-- A completion request for `arg1` with no trailing word typed yet. -/
def c10invs : List SwInv := [⟨"complete", 0, [PyVal.str "arg1:1"]⟩]

theorem missing_posarg_silent_witness :
    completeHandler c10cmd c10invs [] = Except.ok []
    ∧ ∀ s, Event.print s ∉ ([] : List Event) :=
  missing_posarg_silent c10cmd c10invs [] completeSwitchInfo [] "arg1" "1"
    echoCompletion rfl rfl rfl rfl rfl

/-- Claim C1 (amended): an unresolvable positional target ends the handler
silently with no candidate printed and no error; but an unresolvable
`+`-prefixed switch target raises an uncaught KeyError from the
switches-by-name lookup. -/
theorem unknown_target_amended (cmd : CommandNode) (swfuncs : List SwInv)
    (tailargs : List String) (cfi : SwitchInfo) (revts : List Event)
    (argname current : String)
    (h0 : switchesByName cmd.switchInfos "complete" = some cfi)
    (h1 : replayLoop cfi.func (sortedInvs swfuncs)
        = Except.ok (revts, some (argname, current))) :
    (startsWithPlus argname = false →
      List.lookup argname cmd.comp_table = none →
      completeHandler cmd swfuncs tailargs = Except.ok revts
        ∧ ∀ s, Event.print s ∉ revts)
    ∧ (startsWithPlus argname = true →
      switchesByName cmd.switchInfos (dropFirst argname) = none →
      completeHandler cmd swfuncs tailargs = Except.error PyError.keyError) := by
  constructor
  · intro h2 h3
    constructor
    · simp only [completeHandler, h0, h1, h2, h3]
      simp
    · intro s hs
      rw [replayLoop_events cfi.func (sortedInvs swfuncs) revts _ h1] at hs
      rcases List.mem_map.1 hs with ⟨i, _, hei⟩
      cases hei
  · intro h2 h3
    simp only [completeHandler, h0, h1, h2, h3]
    simp

/-- A bare command with only the completion switch declared. -/
def c1cmd : CommandNode where
  m_args := ["self"]
  m_varargs := none
  m_defaults := 0
  subNames := []
  comp_table := []
  switchInfos := [completeSwitchInfo]

/-- A handcrafted request for the unknown switch target `+zzz`. -/
def c1invs : List SwInv := [⟨"complete", 0, [PyVal.str "+zzz:1"]⟩]

/-- A handcrafted request for the unknown positional target `zzz`. -/
def c1winvs : List SwInv := [⟨"complete", 0, [PyVal.str "zzz:1"]⟩]

/-- Claim C1 as stated is false for `+`-prefixed targets: a completion
request naming the unknown switch `+zzz` makes the handler raise a KeyError
(`self._switches_by_name[argname[1:]]` is outside any try block) instead of
silently producing no output. -/
theorem unknown_switch_target_raises :
    completeHandler c1cmd c1invs [] = Except.error PyError.keyError := rfl

theorem unknown_target_amended_witness :
    (completeHandler c1cmd c1winvs [] = Except.ok []
      ∧ ∀ s, Event.print s ∉ ([] : List Event))
    ∧ completeHandler c1cmd c1invs [] = Except.error PyError.keyError :=
  ⟨(unknown_target_amended c1cmd c1winvs [] completeSwitchInfo [] "zzz" "1" rfl rfl).1
      rfl rfl,
   (unknown_target_amended c1cmd c1invs [] completeSwitchInfo [] "+zzz" "1" rfl rfl).2
      rfl rfl⟩

/-- A name absent from the zipped parameter names resolves to the entry
appended after the zipped part of `posargs`. -/
theorem lookup_zip_append (v : String) (margs tailargs : List String) (x : PyVal)
    (hv : v ∉ margs) :
    List.lookup v (List.zipWith (fun a t => (a, PyVal.str t)) margs tailargs ++ [(v, x)])
      = some x := by
  induction margs generalizing tailargs with
  | nil => simp [List.lookup_cons]
  | cons a as ih =>
    cases tailargs with
    | nil => simp [List.lookup_cons]
    | cons t ts =>
      have hb : (v == a) = false :=
        beq_false_of_ne (fun hh => hv (hh ▸ List.mem_cons_self a as))
      simp only [List.zipWith_cons_cons, List.cons_append, List.lookup_cons, hb]
      exact ih ts (fun hm => hv (List.mem_cons_of_mem a hm))

/-- When more words than named parameters were supplied, the variadic name
(absent among the named parameters) maps to the variadic tail in `posargs`. -/
theorem lookup_buildPosargs_varargs (v : String) (margs tailargs : List String)
    (hv : v ∉ margs) (hlen : margs.length < tailargs.length) :
    List.lookup v (buildPosargs margs (some v) tailargs)
      = some (PyVal.list (tailargs.drop margs.length)) := by
  have hb : buildPosargs margs (some v) tailargs
      = List.zipWith (fun a t => (a, PyVal.str t)) margs tailargs
        ++ [(v, PyVal.list (tailargs.drop margs.length))] := by
    unfold buildPosargs
    simp [hlen]
  rw [hb]
  exact lookup_zip_append v margs tailargs _ hv

/-- Claim C3: when the target equals the variadic parameter, the handler
selects as prefix the single word at the 1-based current position within the
variadic tail — `posargs[argname][int(current) - 1]` — not the whole tail,
and dispatches the descriptor on that word. -/
theorem variadic_word_selected (cmd : CommandNode) (swfuncs : List SwInv)
    (tailargs : List String) (cfi : SwitchInfo) (revts : List Event)
    (v current : String) (comp : CompletionObj)
    (fn : PyVal → List (String × PyVal) → List String) (n : Int) (w : String)
    (h0 : switchesByName cmd.switchInfos "complete" = some cfi)
    (h1 : replayLoop cfi.func (sortedInvs swfuncs)
        = Except.ok (revts, some (v, current)))
    (h2 : startsWithPlus v = false)
    (h3 : List.lookup v cmd.comp_table = some comp)
    (h4 : cmd.m_varargs = some v)
    (h5 : v ∉ cmd.m_args.drop 1)
    (h6 : (cmd.m_args.drop 1).length < tailargs.length)
    (h7 : pyInt current = some n)
    (h8 : pyIndex (tailargs.drop (cmd.m_args.drop 1).length) (n - 1) = some w)
    (h9 : comp.complete = some fn) :
    completeHandler cmd swfuncs tailargs
      = Except.ok (revts ++ (fn (PyVal.str w)
          (buildPosargs (cmd.m_args.drop 1) cmd.m_varargs tailargs)).map Event.print) := by
  have hlook : List.lookup v (buildPosargs cmd.m_args.tail (some v) tailargs)
      = some (PyVal.list (tailargs.drop cmd.m_args.tail.length)) :=
    lookup_buildPosargs_varargs v cmd.m_args.tail tailargs
      (by simpa [List.drop_one] using h5) (by simpa [List.drop_one] using h6)
  have h8t : pyIndex (tailargs.drop cmd.m_args.tail.length) (n - 1) = some w := by
    simpa [List.drop_one] using h8
  simp only [completeHandler, h0, h1, h2, h3, h4, List.drop_one, hlook, h7, h8t, h9]
  simp

/-- The subcommand-style node of the spec example:
`def main(self, *profilenames)` with a dynamic completion on the variadic
parameter. -/
def w3cmd : CommandNode where
  m_args := ["self"]
  m_varargs := some "profilenames"
  m_defaults := 0
  subNames := []
  comp_table := [("profilenames", echoCompletion)]
  switchInfos := [completeSwitchInfo]

/-- A prior `--profile default` switch invocation followed by the completion
request `profilenames:2`. -/
def w3invs : List SwInv :=
  [⟨"profile_switch", 0, [PyVal.str "default"]⟩,
   ⟨"complete", 1, [PyVal.str "profilenames:2"]⟩]

theorem variadic_word_selected_witness :
    completeHandler w3cmd w3invs ["pkg1", "pkg2"]
      = Except.ok [Event.call "profile_switch" [PyVal.str "default"],
          Event.print "pkg2"] := by
  have h := variadic_word_selected w3cmd w3invs ["pkg1", "pkg2"] completeSwitchInfo
    [Event.call "profile_switch" [PyVal.str "default"]] "profilenames" "2"
    echoCompletion
    (fun p _ => match p with | PyVal.str s => [s] | PyVal.list l => l)
    2 "pkg2" rfl rfl rfl rfl rfl (by decide) (by decide) (by decide) (by decide) rfl
  exact h.trans rfl
